import Mathlib

/-!
Shallow embedding of `scripts/pipeline-monitor.py` (class `PipelineMonitor`)
and proofs about the claims of the specification.

Modelling conventions:
* Python `float` arithmetic on the derived metric fields is modelled by exact
  rational arithmetic (`ℚ`); the formulas involved (`x / n * 100`, sums and
  means of integers) are the mathematical formulas the source writes down.
* Python `None` and absent dictionary keys are modelled by `Option`.
* ISO-8601 timestamp strings are kept as `String`; Python compares strings
  lexicographically by code point, which is the order `≤` on `String.data`
  (the underlying `List Char`).
* `sorted(xs, key=..., reverse=True)` is a stable sort by the key, descending;
  it is modelled by `List.insertionSort` with the reversed relation, which is
  extensionally the same stable sort.
* `datetime.fromisoformat` applied to a timestamp string either fails
  (`None` argument, unparseable text) or yields a point in time, modelled as
  `Option Int` (epoch seconds); GitHub timestamps carry whole seconds, so
  `int((end - start).total_seconds())` is exact integer subtraction.
-/

/-- One entry of a workflow's `recent_runs` list as built in
`update_workflow_status` (pipeline-monitor.py lines 173-183): the fields of
the run dictionary that the monitor reads later.  `conclusion` may be the
JSON `null` for an in-progress run, hence `Option String`. -/
structure RunSummary where
  id : Int
  status : String
  conclusion : Option String
  created_at : String
  updated_at : String
  duration : Int
deriving DecidableEq

/-- One value of the `workflow_status` dictionary (lines 166-171); the claims
only read its `recent_runs` list (the dictionary also stores `latest_run`,
which none of the verified computations consult). -/
structure WorkflowSummary where
  recent_runs : List RunSummary
deriving DecidableEq

/-- The `metrics` sub-dictionary of `pipeline_status` (lines 49-55). -/
structure Metrics where
  total_runs : Nat
  success_rate : ℚ
  avg_duration : ℚ
  last_success : Option String
  last_failure : Option String
deriving DecidableEq

/-- Initial value of `metrics` from the constructor (lines 49-55). -/
def init_metrics : Metrics :=
  { total_runs := 0, success_rate := 0, avg_duration := 0,
    last_success := none, last_failure := none }

/-- Model of `_calculate_duration` (lines 764-771): both timestamps parse to a point
in time (epoch seconds) or the bare `except:` returns 0.  A missing (`None`)
timestamp raises `AttributeError` in `.replace` and is caught by the same
handler. -/
def calculate_duration (start_time end_time : Option Int) : Int :=
  match start_time, end_time with
  | some s, some e => e - s
  | _, _ => 0

/-- Count of runs with `conclusion == 'success'` (lines 189, 287). -/
def success_count (runs : List RunSummary) : Nat :=
  (runs.filter (fun r => r.conclusion == some "success")).length

/-- The `completed_runs` filter `[r for r in runs if r['duration'] > 0]`
(lines 192, 291). -/
def completed_runs (runs : List RunSummary) : List RunSummary :=
  runs.filter (fun r => 0 < r.duration)

/-- Per-workflow `success_rate` as computed in `update_workflow_status`
(lines 169, 188-190): initialised to `0.0` and overwritten with
`successful / len(runs) * 100` when the run list is non-empty. -/
def workflow_success_rate (runs : List RunSummary) : ℚ :=
  if runs.isEmpty then 0
  else (success_count runs : ℚ) / (runs.length : ℚ) * 100

/-- Per-workflow `avg_duration` as computed in `update_workflow_status`
(lines 170, 192-194): initialised to `0` and overwritten with the mean of the
positive durations when at least one run has positive duration. -/
def workflow_avg_duration (runs : List RunSummary) : ℚ :=
  let completed := completed_runs runs
  if completed.isEmpty then 0
  else ((completed.map RunSummary.duration).sum : ℚ) / (completed.length : ℚ)

/-- The `all_runs` accumulator of `update_metrics` (lines 281-283):
`all_runs.extend(workflow['recent_runs'])` over `workflows.values()` in
insertion order. -/
def all_runs_of : List WorkflowSummary → List RunSummary
  | [] => []
  | w :: ws => w.recent_runs ++ all_runs_of ws

/-- Python truthiness test `not x` for the `last_success` / `last_failure`
slots: `None` and the empty string are falsy, every other string truthy. -/
def falsy : Option String → Bool
  | none => true
  | some s => s.data.isEmpty

/-- The sort key order of line 297: `sorted(all_runs, key=lambda r:
r['updated_at'], reverse=True)` puts `a` before `b` when `a`'s key is
code-point-lexicographically at least `b`'s. -/
def run_desc (a b : RunSummary) : Prop :=
  b.updated_at.data ≤ a.updated_at.data

instance : DecidableRel run_desc :=
  fun a b => inferInstanceAs (Decidable (b.updated_at.data ≤ a.updated_at.data))

instance : IsTotal RunSummary run_desc :=
  ⟨fun a b => le_total b.updated_at.data a.updated_at.data⟩

instance : IsTrans RunSummary run_desc :=
  ⟨fun _ _ _ h1 h2 => le_trans h2 h1⟩

/-- The scan of lines 299-303 over the sorted run list, threading the two
metric slots: `if run['conclusion'] == 'success' and not last_success: ...
elif run['conclusion'] in ['failure', 'cancelled'] and not last_failure: ...`. -/
def scan_last : List RunSummary → Option String → Option String →
    Option String × Option String
  | [], ls, lf => (ls, lf)
  | r :: rest, ls, lf =>
    if r.conclusion == some "success" && falsy ls then
      scan_last rest (some r.updated_at) lf
    else if (r.conclusion == some "failure" || r.conclusion == some "cancelled")
        && falsy lf then
      scan_last rest ls (some r.updated_at)
    else
      scan_last rest ls lf

/-- Model of `update_metrics` (lines 274-308) as a pure function from the previous
`metrics` dictionary and the current `workflows` dictionary (its values in
order) to the new `metrics` dictionary.  Fields whose guarded assignment does
not execute keep their previous value. -/
def update_metrics (prev : Metrics) (workflows : List WorkflowSummary) : Metrics :=
  if workflows.isEmpty then prev
  else
    let all_runs := all_runs_of workflows
    if all_runs.isEmpty then prev
    else
      let success_rate : ℚ := (success_count all_runs : ℚ) / (all_runs.length : ℚ) * 100
      let completed := completed_runs all_runs
      let avg_duration : ℚ :=
        if completed.isEmpty then prev.avg_duration
        else ((completed.map RunSummary.duration).sum : ℚ) / (completed.length : ℚ)
      let sorted_runs := List.insertionSort run_desc all_runs
      let lsf := scan_last sorted_runs prev.last_success prev.last_failure
      { total_runs := all_runs.length
        success_rate := success_rate
        avg_duration := avg_duration
        last_success := lsf.1
        last_failure := lsf.2 }

/-- The `summary` block of a parsed security report
(`security_data.get('summary', {})`, lines 261-262). -/
structure ReportSummary where
  total_vulnerabilities : Option Int
  status : Option String
deriving DecidableEq

/-- A parsed security report file body: the keys `update_security_status`
reads (lines 260-262). -/
structure ReportContent where
  timestamp : Option String
  summary : Option ReportSummary
deriving DecidableEq

/-- One file of the `docs/security-reports/combined` directory: its name, its
filesystem modification time (`st_mtime`), and its parsed JSON body (`none`
when `json.load` raises, which the outer `except` of lines 271-272 turns into
"leave `security_status` unchanged"). -/
structure ReportFile where
  name : String
  mtime : Int
  content : Option ReportContent
deriving DecidableEq

/-- The reachable shapes of the `pipeline_status['security_status']`
dictionary: the constructor's initial `{}` (line 48), the two-key `NO_SCAN`
dictionary (lines 266-269), or the four-key dictionary populated from a
report (lines 259-264). -/
inductive SecurityStatus where
  | init : SecurityStatus
  | noScan : SecurityStatus
  | report (last_scan : Option String) (total_vulnerabilities : Int)
      (status : String) (report_file : String) : SecurityStatus
deriving DecidableEq

/-- The `status` value stored in the `security_status` dictionary, `none`
when the dictionary has no `status` key (the initial `{}`). -/
def SecurityStatus.statusField : SecurityStatus → Option String
  | .init => none
  | .noScan => some "NO_SCAN"
  | .report _ _ s _ => some s

/-- The glob `security-report-*.json` of line 251 restricted to plain file
names (no path separator): the name starts with `security-report-` and ends
with `.json` (stated on the underlying character lists; the fixed prefix and
suffix disagree at every possible overlap, so this is exactly the glob). -/
def matches_report_glob (name : String) : Bool :=
  ("security-report-".data.isPrefixOf name.data)
    && (".json".data.isSuffixOf name.data)

/-- Python `max(files, key=lambda p: p.stat().st_mtime)` (line 254): scan the
list keeping the current maximum, replacing it only on a strictly greater
key, so the first maximum wins. -/
def max_by_mtime : List ReportFile → Option ReportFile
  | [] => none
  | f :: fs => some (fs.foldl (fun acc g => if acc.mtime < g.mtime then g else acc) f)

/-- Model of `update_security_status` (lines 243-272) as a pure function of the
directory state (`none` = directory absent) and the previous
`security_status` value.  When the directory is absent the body of the
outer `if` never runs and the previous value is kept; when the chosen
report's JSON fails to parse the raised error is caught by the outer
`except` and the previous value is kept. -/
def update_security_status (dir : Option (List ReportFile))
    (prev : SecurityStatus) : SecurityStatus :=
  match dir with
  | none => prev
  | some files =>
    let json_reports := files.filter (fun f => matches_report_glob f.name)
    match max_by_mtime json_reports with
    | none => .noScan
    | some latest =>
      match latest.content with
      | none => prev
      | some c =>
        .report c.timestamp
          ((c.summary.bind ReportSummary.total_vulnerabilities).getD 0)
          ((c.summary.bind ReportSummary.status).getD "UNKNOWN")
          latest.name

/-- A JSON value, the result of a successful `json.loads`. -/
inductive Json where
  | obj (fields : List (String × Json))
  | arr (elems : List Json)
  | str (s : String)
  | num (n : Int)
  | bool (b : Bool)
  | null

/-- Lookup `data.get('type')` on a dictionary produced by `json.loads`: with
duplicate keys the last occurrence wins; a missing key yields `None`. -/
def getField (fields : List (String × Json)) (k : String) : Option Json :=
  ((fields.filter (fun p => p.1 == k)).getLast?).map (fun p => p.2)

/-- Whether a JSON value is an object (a Python `dict`). -/
def Json.isObj : Json → Bool
  | .obj _ => true
  | _ => false

/-- The replies `handle_client` / `handle_client_message` can send for one
inbound message (lines 363-367, 390-396). -/
inductive Reply where
  | pong : Reply
  | statusUpdate : Reply
  | invalidJsonError : Reply
deriving DecidableEq

/-- Outcome of processing one inbound viewer message inside the `async for`
loop of `handle_client` (lines 358-367): either the loop continues (with an
optional reply already sent), or an exception escaped the per-message
`try`/`except` — only `json.JSONDecodeError` is caught there — so the
handler unwinds, the `finally` discards the viewer, and the connection is
closed. -/
inductive ClientStep where
  | replied (r : Option Reply) : ClientStep
  | crashed : ClientStep
deriving DecidableEq

/-- Processing of one inbound message: `json.loads` fails (`none`) and the
`except json.JSONDecodeError` branch sends the `Invalid JSON` error; or it
yields a value `data`, and `handle_client_message` runs
`data.get('type')` — an `AttributeError` (uncaught) if `data` is not a
dictionary — then answers `ping` / `request_status` and silently ignores
every other type (lines 386-396). -/
def handle_inbound (msg : Option Json) : ClientStep :=
  match msg with
  | none => .replied (some .invalidJsonError)
  | some (.obj fields) =>
    match getField fields "type" with
    | some (.str "ping") => .replied (some .pong)
    | some (.str "request_status") => .replied (some .statusUpdate)
    | _ => .replied none
  | some _ => .crashed

/-- Model of `broadcast_status` (lines 310-330) as a pure function: the registry is
the set of connected viewers (modelled as a duplicate-free list of viewer
ids), `sendOk v` tells whether `await client.send(message)` succeeds for
viewer `v` (any raised error lands in the `except` arms and marks the viewer
disconnected).  Result: the `(viewer, message)` deliveries performed and the
registry after `self.clients -= disconnected`. -/
def broadcast_status (clients : List Nat) (sendOk : Nat → Bool)
    (message : String) : List (Nat × String) × List Nat :=
  if clients.isEmpty then ([], clients)
  else
    let disconnected := clients.filter (fun c => !(sendOk c))
    ((clients.filter (fun c => sendOk c)).map (fun c => (c, message)),
     clients.filter (fun c => !(disconnected.contains c)))

/-- One element of the GitHub pull-request listing as read by
`update_dependabot_status` (lines 225-236). -/
structure PullRequest where
  number : Int
  title : String
  user_login : String
  created_at : String
  updated_at : String
  state : String
  html_url : String
  mergeable : Option Bool
  labels : List String
deriving DecidableEq

/-- The dictionary appended for a Dependabot PR (lines 227-236). -/
structure PRSummary where
  number : Int
  title : String
  created_at : String
  updated_at : String
  state : String
  url : String
  mergeable : Option Bool
  labels : List String
deriving DecidableEq

/-- The field mapping of lines 227-236. -/
def toPRSummary (pr : PullRequest) : PRSummary :=
  { number := pr.number, title := pr.title, created_at := pr.created_at,
    updated_at := pr.updated_at, state := pr.state, url := pr.html_url,
    mergeable := pr.mergeable, labels := pr.labels }

/-- The accumulation loop of `update_dependabot_status` (lines 224-236):
append a summary for each PR whose author login is `dependabot[bot]`, in
provider order. -/
def update_dependabot_status : List PullRequest → List PRSummary
  | [] => []
  | pr :: rest =>
    if pr.user_login == "dependabot[bot]" then
      toPRSummary pr :: update_dependabot_status rest
    else
      update_dependabot_status rest

/-- Modelled from the claim's words (spec section 4.1): scan the flattened
runs in their current group order and take the first run with conclusion
`success`; the value captured is its `updated_at`. -/
def spec_first_success_in_group_order (ws : List WorkflowSummary) : Option String :=
  ((all_runs_of ws).find? (fun r => r.conclusion == some "success")).map
    RunSummary.updated_at

/-- Sample run: a success with a positive duration. -/
def sample_success : RunSummary :=
  { id := 1, status := "completed", conclusion := some "success",
    created_at := "2024-01-01T00:00:00Z", updated_at := "2024-01-01T01:00:00Z",
    duration := 60 }

/-- Sample run: a failure whose duration is 0 (still running or bad
timestamps). -/
def sample_failure : RunSummary :=
  { id := 2, status := "in_progress", conclusion := some "failure",
    created_at := "2024-01-02T00:00:00Z", updated_at := "2024-01-02T01:00:00Z",
    duration := 0 }

/-- Sample run: an earlier success (smaller `updated_at`) than
`sample_late_success`, placed first in group order. -/
def sample_early_success : RunSummary :=
  { id := 3, status := "completed", conclusion := some "success",
    created_at := "2024-01-01T00:00:00Z", updated_at := "2024-01-01T00:00:00Z",
    duration := 30 }

/-- Sample run: a later success (larger `updated_at`) than
`sample_early_success`, placed second in group order. -/
def sample_late_success : RunSummary :=
  { id := 4, status := "completed", conclusion := some "success",
    created_at := "2024-01-02T00:00:00Z", updated_at := "2024-01-02T00:00:00Z",
    duration := 45 }

/-- A workflow dictionary holding the two successes in group order
earlier-first. -/
def ws_two_successes : List WorkflowSummary :=
  [{ recent_runs := [sample_early_success, sample_late_success] }]

/-- A workflow dictionary whose only run has duration 0. -/
def ws_zero_duration : List WorkflowSummary :=
  [{ recent_runs := [sample_failure] }]

/-- A previous metrics value with a non-zero success rate, as produced by an
earlier poll cycle. -/
def prev_fifty : Metrics :=
  { total_runs := 10, success_rate := 50, avg_duration := 40,
    last_success := none, last_failure := none }

/-- A previous metrics value with average duration 100. -/
def prev_hundred : Metrics :=
  { total_runs := 3, success_rate := 10, avg_duration := 100,
    last_success := none, last_failure := none }

/-- A previous metrics value with average duration 7. -/
def prev_seven : Metrics :=
  { total_runs := 3, success_rate := 10, avg_duration := 7,
    last_success := none, last_failure := none }

/-- A previous metrics value whose `last_success` and `last_failure` slots
are already truthy (captured in an earlier cycle). -/
def prev_frozen : Metrics :=
  { total_runs := 5, success_rate := 80, avg_duration := 10,
    last_success := some "2023-12-01T00:00:00Z",
    last_failure := some "2023-11-01T00:00:00Z" }

/-- Sample security report: oldest modification time. -/
def report_old : ReportFile :=
  { name := "security-report-2024-01-01.json", mtime := 100,
    content := some
      { timestamp := some "2024-01-01T00:00:00Z",
        summary := some
          { total_vulnerabilities := some 3,
            status := some "VULNERABILITIES_FOUND" } } }

/-- Sample security report: middle modification time. -/
def report_mid : ReportFile :=
  { name := "security-report-2024-02-01.json", mtime := 200,
    content := some
      { timestamp := some "2024-02-01T00:00:00Z",
        summary := some
          { total_vulnerabilities := some 1,
            status := some "VULNERABILITIES_FOUND" } } }

/-- Sample security report: latest modification time, clean scan. -/
def report_new : ReportFile :=
  { name := "security-report-2024-03-01.json", mtime := 300,
    content := some
      { timestamp := some "2024-03-01T00:00:00Z",
        summary := some
          { total_vulnerabilities := some 0, status := some "CLEAN" } } }

/-- Sample directory entry that does not match the report glob. -/
def report_other : ReportFile :=
  { name := "readme.txt", mtime := 400, content := none }

/-- C2 counterexample: with parseable timestamps where `updated_at` precedes
`created_at` (start at epoch second 100, end at 40), `_calculate_duration`
returns -60, a negative value, refuting "for every run whatsoever,
durationSeconds is never negative". -/
theorem calculate_duration_negative_cex :
    calculate_duration (some 100) (some 40) = -60 ∧ (-60 : Int) < 0 :=
  ⟨rfl, by decide⟩

/-- C2 (amended): when either timestamp is missing or unparseable the
duration is exactly 0; when both parse the duration is the difference
end - start, which is nonnegative exactly when the end does not precede the
start (and can be negative otherwise). -/
theorem calculate_duration_spec :
    (∀ s e : Option Int, s = none ∨ e = none → calculate_duration s e = 0)
    ∧ (∀ a b : Int, calculate_duration (some a) (some b) = b - a)
    ∧ (∀ a b : Int, a ≤ b → 0 ≤ calculate_duration (some a) (some b)) := by
  refine ⟨?_, ?_, ?_⟩
  · intro s e h
    rcases h with h | h
    · subst h; cases e <;> rfl
    · subst h; cases s <;> rfl
  · intro a b; rfl
  · intro a b hab
    show (0 : Int) ≤ b - a
    omega

/-- C2 witness: the amended theorem evaluated at concrete inputs. -/
theorem calculate_duration_spec_witness :
    (calculate_duration none (some 5) = 0)
    ∧ (calculate_duration (some 2) (some 7) = 7 - 2)
    ∧ ((2 : Int) ≤ 7 ∧ 0 ≤ calculate_duration (some 2) (some 7)) :=
  ⟨calculate_duration_spec.1 none (some 5) (Or.inl rfl),
   calculate_duration_spec.2.1 2 7,
   by decide, calculate_duration_spec.2.2 2 7 (by decide)⟩

/-- C9: the PR list stored in `dependabot_prs` is exactly the provider list
filtered to authors with login `dependabot[bot]`, mapped to summaries, in
the provider-reported order. -/
theorem update_dependabot_status_spec (data : List PullRequest) :
    update_dependabot_status data =
      (data.filter (fun pr => pr.user_login == "dependabot[bot]")).map toPRSummary := by
  induction data with
  | nil => rfl
  | cons pr rest ih =>
    by_cases h : (pr.user_login == "dependabot[bot]") = true
    · simp [update_dependabot_status, List.filter_cons, h, ih]
    · simp [update_dependabot_status, List.filter_cons, h, ih]

/-- C10: a well-formed JSON object whose `type` field is neither `ping` nor
`request_status` gets no reply at all; the handler loop continues (no
exception, connection stays open) and no server state is touched
(`handle_client_message` only ever sends). -/
theorem handle_unknown_type_no_reply (fields : List (String × Json))
    (h1 : getField fields "type" ≠ some (Json.str "ping"))
    (h2 : getField fields "type" ≠ some (Json.str "request_status")) :
    handle_inbound (some (Json.obj fields)) = ClientStep.replied none := by
  have hred : handle_inbound (some (Json.obj fields)) =
      match getField fields "type" with
      | some (Json.str "ping") => ClientStep.replied (some Reply.pong)
      | some (Json.str "request_status") => ClientStep.replied (some Reply.statusUpdate)
      | _ => ClientStep.replied none := rfl
  rw [hred]
  split
  · next heq => exact absurd heq h1
  · next heq => exact absurd heq h2
  · rfl

/-- C10 witness: an object with type `hello` gets no reply. -/
theorem handle_unknown_type_no_reply_witness :
    getField [("type", Json.str "hello")] "type" ≠ some (Json.str "ping")
    ∧ getField [("type", Json.str "hello")] "type" ≠ some (Json.str "request_status")
    ∧ handle_inbound (some (Json.obj [("type", Json.str "hello")]))
        = ClientStep.replied none := by
  have h1 : getField [("type", Json.str "hello")] "type" ≠ some (Json.str "ping") := by
    intro h
    simp only [getField] at h
    injection h with h
    injection h with h
    exact absurd h (by decide)
  have h2 : getField [("type", Json.str "hello")] "type"
      ≠ some (Json.str "request_status") := by
    intro h
    simp only [getField] at h
    injection h with h
    injection h with h
    exact absurd h (by decide)
  exact ⟨h1, h2, handle_unknown_type_no_reply _ h1 h2⟩

/-- C7 counterexample: a syntactically valid JSON message that is not an
object (here the array `[]`) is a malformed protocol message, yet the
handler does not answer with an `error` message over an open connection: the
`AttributeError` from `data.get` escapes the per-message `try`, the handler
unwinds and the connection is closed. -/
theorem handle_inbound_nonobject_cex :
    handle_inbound (some (Json.arr [])) = ClientStep.crashed
    ∧ ClientStep.crashed ≠ ClientStep.replied (some Reply.invalidJsonError) :=
  ⟨rfl, by decide⟩

/-- C7 (amended): a message that fails JSON parsing is answered with the
`Invalid JSON` error and the loop continues (connection open); a message
that parses to a JSON object never crashes the handler; but a message that
parses to a non-object raises an uncaught error, terminating the handler
and closing the connection. -/
theorem handle_inbound_spec :
    (handle_inbound none = ClientStep.replied (some Reply.invalidJsonError))
    ∧ (∀ fields : List (String × Json),
        handle_inbound (some (Json.obj fields)) ≠ ClientStep.crashed)
    ∧ (∀ j : Json, j.isObj = false → handle_inbound (some j) = ClientStep.crashed) := by
  refine ⟨rfl, ?_, ?_⟩
  · intro fields h
    have hred : handle_inbound (some (Json.obj fields)) =
        match getField fields "type" with
        | some (Json.str "ping") => ClientStep.replied (some Reply.pong)
        | some (Json.str "request_status") => ClientStep.replied (some Reply.statusUpdate)
        | _ => ClientStep.replied none := rfl
    rw [hred] at h
    split at h <;> exact ClientStep.noConfusion h
  · intro j hj
    cases j <;> first
      | rfl
      | exact absurd hj (by simp [Json.isObj])

/-- C7 witness: the amended theorem evaluated at concrete inputs. -/
theorem handle_inbound_spec_witness :
    (handle_inbound none = ClientStep.replied (some Reply.invalidJsonError))
    ∧ handle_inbound (some (Json.obj [("type", Json.str "ping")])) ≠ ClientStep.crashed
    ∧ ((Json.num 3).isObj = false
        ∧ handle_inbound (some (Json.num 3)) = ClientStep.crashed) :=
  ⟨handle_inbound_spec.1,
   handle_inbound_spec.2.1 [("type", Json.str "ping")],
   rfl, handle_inbound_spec.2.2 (Json.num 3) rfl⟩

/-- Registry membership after a broadcast: exactly the previously registered
viewers whose send succeeded remain. -/
lemma broadcast_registry_mem (clients : List Nat) (sendOk : Nat → Bool)
    (message : String) (c : Nat) :
    c ∈ (broadcast_status clients sendOk message).2 ↔ c ∈ clients ∧ sendOk c = true := by
  simp only [broadcast_status]
  by_cases h : clients.isEmpty
  · have hnil : clients = [] := List.isEmpty_iff.mp h
    subst hnil
    simp
  · rw [if_neg (by simpa using h)]
    simp only [List.mem_filter, Bool.not_eq_true']
    constructor
    · rintro ⟨hc, hb⟩
      refine ⟨hc, ?_⟩
      cases hok : sendOk c with
      | true => rfl
      | false =>
        have hmem : c ∈ clients.filter (fun x => !(sendOk x)) :=
          List.mem_filter.mpr ⟨hc, by simp [hok]⟩
        have hcontra : (clients.filter (fun x => !(sendOk x))).contains c = true :=
          List.elem_iff.mpr hmem
        rw [hb] at hcontra
        exact Bool.noConfusion hcontra
    · rintro ⟨hc, hok⟩
      refine ⟨hc, ?_⟩
      cases hcc : (clients.filter (fun x => !(sendOk x))).contains c with
      | false => rfl
      | true =>
        have hmem : c ∈ clients.filter (fun x => !(sendOk x)) := List.elem_iff.mp hcc
        have hfalse := (List.mem_filter.mp hmem).2
        rw [hok] at hfalse
        exact Bool.noConfusion hfalse

/-- Deliveries of a broadcast: a viewer receives the message exactly when it
was registered and its send succeeded, and every delivered payload is the
single serialized message. -/
lemma broadcast_delivered_mem (clients : List Nat) (sendOk : Nat → Bool)
    (message : String) (p : Nat × String) :
    p ∈ (broadcast_status clients sendOk message).1 ↔
      p.1 ∈ clients ∧ sendOk p.1 = true ∧ p.2 = message := by
  simp only [broadcast_status]
  by_cases h : clients.isEmpty
  · have hnil : clients = [] := List.isEmpty_iff.mp h
    subst hnil
    simp
  · rw [if_neg (by simpa using h)]
    simp only [List.mem_map, List.mem_filter]
    constructor
    · rintro ⟨c, ⟨hc, hok⟩, hp⟩
      cases hp
      exact ⟨hc, hok, rfl⟩
    · rintro ⟨hc, hok, hp⟩
      exact ⟨p.1, ⟨hc, hok⟩, by rw [← hp]⟩

/-- C8: in a broadcast, every delivered payload is the one serialized
message (identical for all viewers); every registered viewer whose send
succeeds receives it; a viewer whose send fails is removed from the registry
and exactly the successful viewers remain; and any remaining viewer still
receives a subsequent broadcast whose send succeeds, independent of the
earlier failure. -/
theorem broadcast_status_spec (clients : List Nat) (sendOk : Nat → Bool)
    (message : String) :
    (∀ p ∈ (broadcast_status clients sendOk message).1, p.2 = message)
    ∧ (∀ c ∈ clients, sendOk c = true →
        (c, message) ∈ (broadcast_status clients sendOk message).1)
    ∧ (∀ c : Nat, c ∈ (broadcast_status clients sendOk message).2 ↔
        c ∈ clients ∧ sendOk c = true)
    ∧ (∀ (sendOk2 : Nat → Bool) (msg2 : String), ∀ c ∈ clients,
        sendOk c = true → sendOk2 c = true →
        (c, msg2) ∈ (broadcast_status (broadcast_status clients sendOk message).2
          sendOk2 msg2).1) := by
  refine ⟨?_, ?_, ?_, ?_⟩
  · intro p hp
    exact ((broadcast_delivered_mem clients sendOk message p).mp hp).2.2
  · intro c hc hok
    exact (broadcast_delivered_mem clients sendOk message (c, message)).mpr
      ⟨hc, hok, rfl⟩
  · intro c
    exact broadcast_registry_mem clients sendOk message c
  · intro sendOk2 msg2 c hc hok hok2
    refine (broadcast_delivered_mem _ sendOk2 msg2 (c, msg2)).mpr ⟨?_, hok2, rfl⟩
    exact (broadcast_registry_mem clients sendOk message c).mpr ⟨hc, hok⟩

/-- C8 witness: two viewers, viewer 2's send fails: viewer 1 receives the
update, viewer 2 is deregistered, and viewer 1 receives the next update. -/
theorem broadcast_status_spec_witness :
    ((1, "m1") ∈ (broadcast_status [1, 2] (fun c => c == 1) "m1").1)
    ∧ ((2 : Nat) ∉ (broadcast_status [1, 2] (fun c => c == 1) "m1").2)
    ∧ ((1 : Nat) ∈ (broadcast_status [1, 2] (fun c => c == 1) "m1").2)
    ∧ ((1, "m2") ∈ (broadcast_status
        ((broadcast_status [1, 2] (fun c => c == 1) "m1").2) (fun _ => true) "m2").1) := by
  refine ⟨?_, ?_, ?_, ?_⟩
  · exact (broadcast_status_spec [1, 2] (fun c => c == 1) "m1").2.1 1 (by decide) (by decide)
  · intro hmem
    have h2 := ((broadcast_status_spec [1, 2] (fun c => c == 1) "m1").2.2.1 2).mp hmem
    exact absurd h2.2 (by decide)
  · exact ((broadcast_status_spec [1, 2] (fun c => c == 1) "m1").2.2.1 1).mpr
      ⟨by decide, by decide⟩
  · exact (broadcast_status_spec [1, 2] (fun c => c == 1) "m1").2.2.2
      (fun _ => true) "m2" 1 (by decide) (by decide) rfl

/-- When the flattened run list is empty the whole metrics rollup is a
no-op. -/
lemma update_metrics_eq_prev (prev : Metrics) (ws : List WorkflowSummary)
    (h : all_runs_of ws = []) : update_metrics prev ws = prev := by
  unfold update_metrics
  by_cases hw : ws.isEmpty
  · rw [if_pos hw]
  · rw [if_neg hw]
    simp only [h, List.isEmpty_nil, if_pos]

/-- A non-empty flattened run list means a non-empty workflow dictionary. -/
lemma ws_not_empty_of_all_runs (ws : List WorkflowSummary)
    (h : all_runs_of ws ≠ []) : ws.isEmpty = false := by
  cases ws with
  | nil => exact absurd rfl h
  | cons w rest => rfl

/-- Field-level description of the rollup when the flattened run list is
non-empty. -/
lemma update_metrics_fields (prev : Metrics) (ws : List WorkflowSummary)
    (h : all_runs_of ws ≠ []) :
    update_metrics prev ws =
      { total_runs := (all_runs_of ws).length
        success_rate := (success_count (all_runs_of ws) : ℚ)
          / ((all_runs_of ws).length : ℚ) * 100
        avg_duration :=
          if (completed_runs (all_runs_of ws)).isEmpty then prev.avg_duration
          else (((completed_runs (all_runs_of ws)).map RunSummary.duration).sum : ℚ)
            / ((completed_runs (all_runs_of ws)).length : ℚ)
        last_success := (scan_last (List.insertionSort run_desc (all_runs_of ws))
          prev.last_success prev.last_failure).1
        last_failure := (scan_last (List.insertionSort run_desc (all_runs_of ws))
          prev.last_success prev.last_failure).2 } := by
  unfold update_metrics
  rw [if_neg (by simp [ws_not_empty_of_all_runs ws h])]
  rw [if_neg (by simp [h])]

/-- C4 counterexample: the aggregate success rate is not 0 for an empty run
list — with an empty workflow dictionary (for instance after the provider
returns zero runs) the rollup keeps the previous cycle's value, here 50. -/
theorem metrics_success_rate_empty_cex :
    all_runs_of [] = []
    ∧ (update_metrics prev_fifty []).success_rate = 50
    ∧ (50 : ℚ) ≠ 0 :=
  ⟨rfl, rfl, by norm_num⟩

/-- C4 (amended): the per-workflow success rate is 100 × successes / total
for a non-empty run list and 0 for an empty one; the aggregate
`metrics.success_rate` equals that formula whenever the flattened run list
is non-empty, and keeps its previous value (initially 0) when it is empty. -/
theorem success_rate_formula_spec :
    (∀ runs : List RunSummary, runs ≠ [] →
      workflow_success_rate runs = 100 * (success_count runs : ℚ) / (runs.length : ℚ))
    ∧ (workflow_success_rate [] = 0)
    ∧ (∀ (prev : Metrics) (ws : List WorkflowSummary), all_runs_of ws ≠ [] →
      (update_metrics prev ws).success_rate
        = 100 * (success_count (all_runs_of ws) : ℚ) / ((all_runs_of ws).length : ℚ))
    ∧ (∀ (prev : Metrics) (ws : List WorkflowSummary), all_runs_of ws = [] →
      (update_metrics prev ws).success_rate = prev.success_rate) := by
  refine ⟨?_, rfl, ?_, ?_⟩
  · intro runs hne
    unfold workflow_success_rate
    rw [if_neg (by simp [hne])]
    ring
  · intro prev ws h
    rw [update_metrics_fields prev ws h]
    show (success_count (all_runs_of ws) : ℚ) / ((all_runs_of ws).length : ℚ) * 100 = _
    ring
  · intro prev ws h
    rw [update_metrics_eq_prev prev ws h]

/-- C4 witness: the amended theorem evaluated at concrete inputs. -/
theorem success_rate_formula_spec_witness :
    ([sample_success, sample_failure] ≠ ([] : List RunSummary)
      ∧ workflow_success_rate [sample_success, sample_failure]
        = 100 * (success_count [sample_success, sample_failure] : ℚ)
          / (([sample_success, sample_failure] : List RunSummary).length : ℚ))
    ∧ (all_runs_of ws_two_successes ≠ []
      ∧ (update_metrics init_metrics ws_two_successes).success_rate
        = 100 * (success_count (all_runs_of ws_two_successes) : ℚ)
          / ((all_runs_of ws_two_successes).length : ℚ))
    ∧ (all_runs_of [] = []
      ∧ (update_metrics prev_fifty []).success_rate = prev_fifty.success_rate) :=
  ⟨⟨by decide, success_rate_formula_spec.1 [sample_success, sample_failure] (by decide)⟩,
   ⟨by decide, success_rate_formula_spec.2.2.1 init_metrics ws_two_successes (by decide)⟩,
   ⟨rfl, success_rate_formula_spec.2.2.2 prev_fifty [] rfl⟩⟩

/-- C6: the average duration is the arithmetic mean over exactly the runs
with strictly positive duration: `completed_runs` contains a run iff it is
in the list with duration > 0, and both the per-workflow value and the
aggregate `metrics.avg_duration` equal sum-over-completed divided by
count-of-completed whenever that set is non-empty. -/
theorem avg_duration_mean_positive :
    (∀ (runs : List RunSummary) (r : RunSummary),
      r ∈ completed_runs runs ↔ r ∈ runs ∧ 0 < r.duration)
    ∧ (∀ runs : List RunSummary, completed_runs runs ≠ [] →
      workflow_avg_duration runs
        = (((completed_runs runs).map RunSummary.duration).sum : ℚ)
          / ((completed_runs runs).length : ℚ))
    ∧ (∀ (prev : Metrics) (ws : List WorkflowSummary),
      completed_runs (all_runs_of ws) ≠ [] →
      (update_metrics prev ws).avg_duration
        = (((completed_runs (all_runs_of ws)).map RunSummary.duration).sum : ℚ)
          / ((completed_runs (all_runs_of ws)).length : ℚ)) := by
  refine ⟨?_, ?_, ?_⟩
  · intro runs r
    unfold completed_runs
    simp [List.mem_filter]
  · intro runs h
    unfold workflow_avg_duration
    rw [if_neg (by simp [h])]
  · intro prev ws h
    have hall : all_runs_of ws ≠ [] := by
      intro hnil
      rw [hnil] at h
      exact h rfl
    rw [update_metrics_fields prev ws hall]
    show (if (completed_runs (all_runs_of ws)).isEmpty then prev.avg_duration
      else _) = _
    rw [if_neg (by simp [h])]

/-- C6 witness: with one 60-second success and one zero-duration failure,
the average is 60 (the zero-duration run is excluded from numerator and
denominator). -/
theorem avg_duration_mean_positive_witness :
    (sample_failure ∈ [sample_success, sample_failure] ∧ ¬ 0 < sample_failure.duration
      ∧ (sample_failure ∈ completed_runs [sample_success, sample_failure] ↔
          sample_failure ∈ [sample_success, sample_failure] ∧ 0 < sample_failure.duration))
    ∧ (completed_runs [sample_success, sample_failure] ≠ []
      ∧ workflow_avg_duration [sample_success, sample_failure]
        = (((completed_runs [sample_success, sample_failure]).map RunSummary.duration).sum : ℚ)
          / ((completed_runs [sample_success, sample_failure]).length : ℚ))
    ∧ (completed_runs (all_runs_of ws_two_successes) ≠ []
      ∧ (update_metrics init_metrics ws_two_successes).avg_duration
        = (((completed_runs (all_runs_of ws_two_successes)).map RunSummary.duration).sum : ℚ)
          / ((completed_runs (all_runs_of ws_two_successes)).length : ℚ)) :=
  ⟨⟨by decide, by decide,
    avg_duration_mean_positive.1 [sample_success, sample_failure] sample_failure⟩,
   ⟨by decide,
    avg_duration_mean_positive.2.1 [sample_success, sample_failure] (by decide)⟩,
   ⟨by decide,
    avg_duration_mean_positive.2.2 init_metrics ws_two_successes (by decide)⟩⟩

/-- C5 counterexample: `metrics.avg_duration` is carried over, not
recomputed: with the same current runs (one zero-duration failure) two
different previous cycles give two different current values, 100 and 7. -/
theorem metrics_avg_duration_carryover_cex :
    (update_metrics prev_hundred ws_zero_duration).avg_duration = 100
    ∧ (update_metrics prev_seven ws_zero_duration).avg_duration = 7
    ∧ ((100 : ℚ) ≠ 7) :=
  ⟨rfl, rfl, by norm_num⟩

/-- C5 (amended): the aggregate `success_rate`, `total_runs` and (when some
run has positive duration) `avg_duration` are recomputed from the current
runs with no dependence on the previous cycle; but when the flattened run
list is empty `success_rate` is carried over, and when no current run has
positive duration `avg_duration` is carried over.  (The per-workflow fields
are rebuilt from a fresh dictionary each cycle and cannot carry over.) -/
theorem update_metrics_recompute_spec :
    (∀ (p1 p2 : Metrics) (ws : List WorkflowSummary), all_runs_of ws ≠ [] →
      (update_metrics p1 ws).success_rate = (update_metrics p2 ws).success_rate
      ∧ (update_metrics p1 ws).total_runs = (update_metrics p2 ws).total_runs)
    ∧ (∀ (p1 p2 : Metrics) (ws : List WorkflowSummary),
      completed_runs (all_runs_of ws) ≠ [] →
      (update_metrics p1 ws).avg_duration = (update_metrics p2 ws).avg_duration)
    ∧ (∀ (prev : Metrics) (ws : List WorkflowSummary), all_runs_of ws = [] →
      (update_metrics prev ws).success_rate = prev.success_rate)
    ∧ (∀ (prev : Metrics) (ws : List WorkflowSummary), all_runs_of ws ≠ [] →
      completed_runs (all_runs_of ws) = [] →
      (update_metrics prev ws).avg_duration = prev.avg_duration) := by
  refine ⟨?_, ?_, ?_, ?_⟩
  · intro p1 p2 ws h
    rw [update_metrics_fields p1 ws h, update_metrics_fields p2 ws h]
    exact ⟨rfl, rfl⟩
  · intro p1 p2 ws h
    have hall : all_runs_of ws ≠ [] := by
      intro hnil
      rw [hnil] at h
      exact h rfl
    rw [update_metrics_fields p1 ws hall, update_metrics_fields p2 ws hall]
    show (if (completed_runs (all_runs_of ws)).isEmpty then p1.avg_duration else _)
      = (if (completed_runs (all_runs_of ws)).isEmpty then p2.avg_duration else _)
    rw [if_neg (by simp [h]), if_neg (by simp [h])]
  · intro prev ws h
    rw [update_metrics_eq_prev prev ws h]
  · intro prev ws h hc
    rw [update_metrics_fields prev ws h]
    show (if (completed_runs (all_runs_of ws)).isEmpty then prev.avg_duration else _) = _
    rw [if_pos (by simp [hc])]

/-- C5 witness: the amended theorem evaluated at concrete inputs. -/
theorem update_metrics_recompute_spec_witness :
    (all_runs_of ws_two_successes ≠ []
      ∧ (update_metrics prev_hundred ws_two_successes).success_rate
          = (update_metrics prev_seven ws_two_successes).success_rate)
    ∧ (completed_runs (all_runs_of ws_two_successes) ≠ []
      ∧ (update_metrics prev_hundred ws_two_successes).avg_duration
          = (update_metrics prev_seven ws_two_successes).avg_duration)
    ∧ (all_runs_of [] = []
      ∧ (update_metrics prev_fifty []).success_rate = prev_fifty.success_rate)
    ∧ (all_runs_of ws_zero_duration ≠ []
      ∧ completed_runs (all_runs_of ws_zero_duration) = []
      ∧ (update_metrics prev_hundred ws_zero_duration).avg_duration
          = prev_hundred.avg_duration) :=
  ⟨⟨by decide,
    (update_metrics_recompute_spec.1 prev_hundred prev_seven ws_two_successes (by decide)).1⟩,
   ⟨by decide,
    update_metrics_recompute_spec.2.1 prev_hundred prev_seven ws_two_successes (by decide)⟩,
   ⟨rfl, update_metrics_recompute_spec.2.2.1 prev_fifty [] rfl⟩,
   ⟨by decide, by decide,
    update_metrics_recompute_spec.2.2.2 prev_hundred ws_zero_duration (by decide) (by decide)⟩⟩

/-- The `max(..., key=...)` scan keeps an accumulator that already is the
strict maximum. -/
lemma foldl_mtime_acc_max (f : ReportFile) :
    ∀ xs : List ReportFile, (∀ g ∈ xs, g = f ∨ g.mtime < f.mtime) →
    xs.foldl (fun acc g => if acc.mtime < g.mtime then g else acc) f = f := by
  intro xs
  induction xs with
  | nil => intro _; rfl
  | cons g rest ih =>
    intro h
    have hg := h g (by simp)
    have hstep : (if f.mtime < g.mtime then g else f) = f := by
      rcases hg with hg | hg
      · subst hg; simp
      · rw [if_neg (by omega)]
    simp only [List.foldl_cons, hstep]
    exact ih (fun x hx => h x (by simp [hx]))

/-- The `max(..., key=...)` scan reaches the strict maximum from any smaller
accumulator. -/
lemma foldl_mtime_reach_max (f : ReportFile) :
    ∀ (xs : List ReportFile) (acc : ReportFile), acc.mtime < f.mtime → f ∈ xs →
    (∀ g ∈ xs, g = f ∨ g.mtime < f.mtime) →
    xs.foldl (fun acc g => if acc.mtime < g.mtime then g else acc) acc = f := by
  intro xs
  induction xs with
  | nil => intro acc _ hf _; exact absurd hf (by simp)
  | cons g rest ih =>
    intro acc hacc hf h
    by_cases hgf : g = f
    · subst hgf
      simp only [List.foldl_cons, if_pos hacc]
      exact foldl_mtime_acc_max g rest (fun x hx => h x (by simp [hx]))
    · have hlt : g.mtime < f.mtime := by
        rcases h g (by simp) with hg | hg
        · exact absurd hg hgf
        · exact hg
      have hfr : f ∈ rest := by
        rcases List.mem_cons.mp hf with hfg | hfr
        · exact absurd hfg.symm hgf
        · exact hfr
      simp only [List.foldl_cons]
      by_cases hcase : acc.mtime < g.mtime
      · rw [if_pos hcase]
        exact ih g hlt hfr (fun x hx => h x (by simp [hx]))
      · rw [if_neg hcase]
        exact ih acc hacc hfr (fun x hx => h x (by simp [hx]))

/-- Python `max(json_reports, key=mtime)` returns the file with strictly maximal
modification time. -/
lemma max_by_mtime_strict (l : List ReportFile) (f : ReportFile)
    (hf : f ∈ l) (h : ∀ g ∈ l, g = f ∨ g.mtime < f.mtime) :
    max_by_mtime l = some f := by
  cases l with
  | nil => exact absurd hf (by simp)
  | cons x xs =>
    show some (xs.foldl (fun acc g => if acc.mtime < g.mtime then g else acc) x) = some f
    by_cases hxf : x = f
    · subst hxf
      rw [foldl_mtime_acc_max x xs (fun g hg => h g (by simp [hg]))]
    · have hlt : x.mtime < f.mtime := by
        rcases h x (by simp) with hx | hx
        · exact absurd hx hxf
        · exact hx
      have hfr : f ∈ xs := by
        rcases List.mem_cons.mp hf with hfg | hfr
        · exact absurd hfg.symm hxf
        · exact hfr
      rw [foldl_mtime_reach_max f xs x hlt hfr (fun g hg => h g (by simp [hg]))]

/-- C3 counterexample: when the report directory is absent,
`update_security_status` does nothing at all — `security_status` keeps its
previous value (the initial `{}`, which has no `status` key), instead of
being set to `NO_SCAN` as the claim states. -/
theorem security_status_absent_dir_cex :
    update_security_status none SecurityStatus.init = SecurityStatus.init
    ∧ SecurityStatus.statusField SecurityStatus.init ≠ some "NO_SCAN" :=
  ⟨rfl, by decide⟩

/-- C3 (amended): an absent directory leaves the security status unchanged
(no `NO_SCAN`); a directory with no file matching the glob yields `NO_SCAN`;
a directory whose matching files include one with strictly latest
modification time and well-formed content yields the status populated from
exactly that file's summary block. -/
theorem update_security_status_spec :
    (∀ prev : SecurityStatus, update_security_status none prev = prev)
    ∧ (∀ (prev : SecurityStatus) (files : List ReportFile),
        files.filter (fun f => matches_report_glob f.name) = [] →
        update_security_status (some files) prev = SecurityStatus.noScan)
    ∧ (∀ (prev : SecurityStatus) (files : List ReportFile) (f : ReportFile)
        (c : ReportContent),
        f ∈ files.filter (fun g => matches_report_glob g.name) →
        (∀ g ∈ files.filter (fun g => matches_report_glob g.name),
          g = f ∨ g.mtime < f.mtime) →
        f.content = some c →
        update_security_status (some files) prev =
          SecurityStatus.report c.timestamp
            ((c.summary.bind ReportSummary.total_vulnerabilities).getD 0)
            ((c.summary.bind ReportSummary.status).getD "UNKNOWN") f.name) := by
  refine ⟨fun _ => rfl, ?_, ?_⟩
  · intro prev files h
    show (match max_by_mtime (files.filter (fun g => matches_report_glob g.name)) with
      | none => SecurityStatus.noScan
      | some latest =>
        match latest.content with
        | none => prev
        | some c => SecurityStatus.report c.timestamp
            ((c.summary.bind ReportSummary.total_vulnerabilities).getD 0)
            ((c.summary.bind ReportSummary.status).getD "UNKNOWN") latest.name)
      = SecurityStatus.noScan
    rw [h]
    rfl
  · intro prev files f c hf hmax hc
    show (match max_by_mtime (files.filter (fun g => matches_report_glob g.name)) with
      | none => SecurityStatus.noScan
      | some latest =>
        match latest.content with
        | none => prev
        | some c => SecurityStatus.report c.timestamp
            ((c.summary.bind ReportSummary.total_vulnerabilities).getD 0)
            ((c.summary.bind ReportSummary.status).getD "UNKNOWN") latest.name)
      = _
    rw [max_by_mtime_strict (files.filter (fun g => matches_report_glob g.name)) f hf hmax]
    show (match f.content with
      | none => prev
      | some c => SecurityStatus.report c.timestamp
          ((c.summary.bind ReportSummary.total_vulnerabilities).getD 0)
          ((c.summary.bind ReportSummary.status).getD "UNKNOWN") f.name)
      = _
    rw [hc]

/-- C3 witness: three matching reports of differing modification times plus
a non-matching file — the latest report (a clean scan) is chosen; an empty
match set yields `NO_SCAN`; an absent directory keeps the previous value. -/
theorem update_security_status_spec_witness :
    (update_security_status none SecurityStatus.noScan = SecurityStatus.noScan)
    ∧ (([report_other] : List ReportFile).filter (fun f => matches_report_glob f.name) = []
      ∧ update_security_status (some [report_other]) SecurityStatus.init
          = SecurityStatus.noScan)
    ∧ (report_new ∈ ([report_old, report_new, report_mid, report_other] :
          List ReportFile).filter (fun g => matches_report_glob g.name)
      ∧ (∀ g ∈ ([report_old, report_new, report_mid, report_other] :
          List ReportFile).filter (fun g => matches_report_glob g.name),
          g = report_new ∨ g.mtime < report_new.mtime)
      ∧ update_security_status (some [report_old, report_new, report_mid, report_other])
          SecurityStatus.init
        = SecurityStatus.report (some "2024-03-01T00:00:00Z") 0 "CLEAN"
            "security-report-2024-03-01.json") := by
  refine ⟨update_security_status_spec.1 SecurityStatus.noScan, ⟨?_, ?_⟩, ⟨?_, ?_, ?_⟩⟩
  · decide
  · exact update_security_status_spec.2.1 SecurityStatus.init [report_other] (by decide)
  · decide
  · decide
  · exact update_security_status_spec.2.2 SecurityStatus.init
      [report_old, report_new, report_mid, report_other] report_new
      { timestamp := some "2024-03-01T00:00:00Z",
        summary := some { total_vulnerabilities := some 0, status := some "CLEAN" } }
      (by decide) (by decide) rfl

/-- A non-empty string is truthy. -/
lemma falsy_some_eq_false {s : String} (h : s ≠ "") : falsy (some s) = false := by
  show s.data.isEmpty = false
  rw [Bool.eq_false_iff]
  intro he
  exact h (String.ext (List.isEmpty_iff.mp he))

/-- Once the `last_success` slot is truthy the scan never overwrites it
(also across poll cycles). -/
lemma scan_last_fst_frozen (l : List RunSummary) :
    ∀ ls lf : Option String, falsy ls = false → (scan_last l ls lf).1 = ls := by
  induction l with
  | nil => intro ls lf _; rfl
  | cons r rest ih =>
    intro ls lf h
    have hred : scan_last (r :: rest) ls lf =
        if r.conclusion == some "success" && falsy ls then
          scan_last rest (some r.updated_at) lf
        else if (r.conclusion == some "failure" || r.conclusion == some "cancelled")
            && falsy lf then
          scan_last rest ls (some r.updated_at)
        else scan_last rest ls lf := rfl
    rw [hred, h, Bool.and_false, if_neg (by simp)]
    by_cases h2 : ((r.conclusion == some "failure" || r.conclusion == some "cancelled")
        && falsy lf) = true
    · rw [if_pos h2]
      exact ih ls (some r.updated_at) h
    · rw [if_neg h2]
      exact ih ls lf h

/-- On a list sorted descending by `updated_at`, starting from a falsy
slot, the scan stores the `updated_at` of a success run that is maximal
(by code-point order) among all success runs of the list. -/
lemma scan_last_fst_success_max (l : List RunSummary)
    (hsorted : List.Pairwise run_desc l)
    (hne : ∀ r ∈ l, r.updated_at ≠ "") :
    ∀ ls lf : Option String, falsy ls = true →
    ∀ r0 ∈ l, r0.conclusion = some "success" →
    ∃ t, (scan_last l ls lf).1 = some t
      ∧ (∃ r2 ∈ l, r2.conclusion = some "success" ∧ r2.updated_at = t)
      ∧ (∀ r2 ∈ l, r2.conclusion = some "success" → r2.updated_at.data ≤ t.data) := by
  induction l with
  | nil =>
    intro ls lf _ r0 h0 _
    exact absurd h0 (by simp)
  | cons r rest ih =>
    intro ls lf hls r0 hr0 hs0
    have hred : scan_last (r :: rest) ls lf =
        if r.conclusion == some "success" && falsy ls then
          scan_last rest (some r.updated_at) lf
        else if (r.conclusion == some "failure" || r.conclusion == some "cancelled")
            && falsy lf then
          scan_last rest ls (some r.updated_at)
        else scan_last rest ls lf := rfl
    by_cases hr : (r.conclusion == some "success") = true
    · have hcond : (r.conclusion == some "success" && falsy ls) = true := by
        rw [hr, hls]; rfl
      rw [hred, if_pos hcond]
      have hfalsy : falsy (some r.updated_at) = false :=
        falsy_some_eq_false (hne r (by simp))
      rw [scan_last_fst_frozen rest (some r.updated_at) lf hfalsy]
      refine ⟨r.updated_at, rfl, ⟨r, by simp, beq_iff_eq.mp hr, rfl⟩, ?_⟩
      intro r2 hr2 hs2
      rcases List.mem_cons.mp hr2 with h | h
      · rw [h]
      · exact (List.pairwise_cons.mp hsorted).1 r2 h
    · have hb : (r.conclusion == some "success") = false := Bool.eq_false_iff.mpr hr
      have hcond : (r.conclusion == some "success" && falsy ls) = false := by
        rw [hb]; rfl
      rw [hred, if_neg (by simp [hcond])]
      have hr0r : r0 ∈ rest := by
        rcases List.mem_cons.mp hr0 with h | h
        · exfalso
          apply hr
          rw [← h]
          exact beq_iff_eq.mpr hs0
        · exact h
      have htail : List.Pairwise run_desc rest := (List.pairwise_cons.mp hsorted).2
      have hne2 : ∀ x ∈ rest, x.updated_at ≠ "" := fun x hx => hne x (by simp [hx])
      have hlift : ∀ lf2 : Option String,
          (∃ t, (scan_last rest ls lf2).1 = some t
            ∧ (∃ r2 ∈ rest, r2.conclusion = some "success" ∧ r2.updated_at = t)
            ∧ (∀ r2 ∈ rest, r2.conclusion = some "success" →
                r2.updated_at.data ≤ t.data)) →
          ∃ t, (scan_last rest ls lf2).1 = some t
            ∧ (∃ r2 ∈ r :: rest, r2.conclusion = some "success" ∧ r2.updated_at = t)
            ∧ (∀ r2 ∈ r :: rest, r2.conclusion = some "success" →
                r2.updated_at.data ≤ t.data) := by
        rintro lf2 ⟨t, ht, ⟨r2, hr2, hs2, hupd⟩, hmax⟩
        refine ⟨t, ht, ⟨r2, by simp [hr2], hs2, hupd⟩, ?_⟩
        intro r3 hr3 hs3
        rcases List.mem_cons.mp hr3 with h | h
        · exfalso
          apply hr
          rw [← h]
          exact beq_iff_eq.mpr hs3
        · exact hmax r3 h hs3
      by_cases h2 : ((r.conclusion == some "failure" || r.conclusion == some "cancelled")
          && falsy lf) = true
      · rw [if_pos h2]
        exact hlift (some r.updated_at)
          (ih htail hne2 ls (some r.updated_at) hls r0 hr0r hs0)
      · rw [if_neg h2]
        exact hlift lf (ih htail hne2 ls lf hls r0 hr0r hs0)

/-- C1 counterexample: two success runs, the earlier-timestamped one first
in group order.  A scan in group order would capture the first one
(`2024-01-01`), but `update_metrics` sorts by `updated_at` descending before
scanning and captures `2024-01-02` — which is exactly the
most-recent-by-timestamp success, contradicting both parts of the claim. -/
theorem metrics_last_success_group_order_cex :
    spec_first_success_in_group_order ws_two_successes
      = some "2024-01-01T00:00:00Z"
    ∧ (update_metrics init_metrics ws_two_successes).last_success
      = some "2024-01-02T00:00:00Z"
    ∧ ("2024-01-01T00:00:00Z" : String) ≠ "2024-01-02T00:00:00Z" := by
  refine ⟨rfl, by decide, by decide⟩

/-- Once the `last_failure` slot is truthy the scan never overwrites it
(also across poll cycles). -/
lemma scan_last_snd_frozen (l : List RunSummary) :
    ∀ ls lf : Option String, falsy lf = false → (scan_last l ls lf).2 = lf := by
  induction l with
  | nil => intro ls lf _; rfl
  | cons r rest ih =>
    intro ls lf h
    have hred : scan_last (r :: rest) ls lf =
        if r.conclusion == some "success" && falsy ls then
          scan_last rest (some r.updated_at) lf
        else if (r.conclusion == some "failure" || r.conclusion == some "cancelled")
            && falsy lf then
          scan_last rest ls (some r.updated_at)
        else scan_last rest ls lf := rfl
    rw [hred]
    by_cases h1 : (r.conclusion == some "success" && falsy ls) = true
    · rw [if_pos h1]
      exact ih (some r.updated_at) lf h
    · rw [if_neg h1, h, Bool.and_false, if_neg (by simp)]
      exact ih ls lf h

/-- On a list sorted descending by `updated_at`, starting from a falsy
slot, the scan stores in its second component the `updated_at` of a
failure-or-cancelled run that is maximal (by code-point order) among all
failure-or-cancelled runs of the list. -/
lemma scan_last_snd_failure_max (l : List RunSummary)
    (hsorted : List.Pairwise run_desc l)
    (hne : ∀ r ∈ l, r.updated_at ≠ "") :
    ∀ ls lf : Option String, falsy lf = true →
    ∀ r0 ∈ l, (r0.conclusion = some "failure" ∨ r0.conclusion = some "cancelled") →
    ∃ t, (scan_last l ls lf).2 = some t
      ∧ (∃ r2 ∈ l, (r2.conclusion = some "failure" ∨ r2.conclusion = some "cancelled")
          ∧ r2.updated_at = t)
      ∧ (∀ r2 ∈ l, (r2.conclusion = some "failure" ∨ r2.conclusion = some "cancelled") →
          r2.updated_at.data ≤ t.data) := by
  induction l with
  | nil =>
    intro ls lf _ r0 h0 _
    exact absurd h0 (by simp)
  | cons r rest ih =>
    intro ls lf hlf r0 hr0 hf0
    have hred : scan_last (r :: rest) ls lf =
        if r.conclusion == some "success" && falsy ls then
          scan_last rest (some r.updated_at) lf
        else if (r.conclusion == some "failure" || r.conclusion == some "cancelled")
            && falsy lf then
          scan_last rest ls (some r.updated_at)
        else scan_last rest ls lf := rfl
    by_cases hb : ((r.conclusion == some "failure" || r.conclusion == some "cancelled"))
        = true
    · have hor : r.conclusion = some "failure" ∨ r.conclusion = some "cancelled" := by
        rcases Bool.or_eq_true_iff.mp hb with h | h
        · exact Or.inl (beq_iff_eq.mp h)
        · exact Or.inr (beq_iff_eq.mp h)
      have hsucc : (r.conclusion == some "success") = false := by
        rcases hor with h | h <;> rw [h] <;> rfl
      have hcond2 : ((r.conclusion == some "failure" || r.conclusion == some "cancelled")
          && falsy lf) = true := by rw [hb, hlf]; rfl
      rw [hred, if_neg (by rw [hsucc]; simp), if_pos hcond2]
      have hfalsy : falsy (some r.updated_at) = false :=
        falsy_some_eq_false (hne r (by simp))
      rw [scan_last_snd_frozen rest ls (some r.updated_at) hfalsy]
      refine ⟨r.updated_at, rfl, ⟨r, by simp, hor, rfl⟩, ?_⟩
      intro r2 hr2 hf2
      rcases List.mem_cons.mp hr2 with h | h
      · rw [h]
      · exact (List.pairwise_cons.mp hsorted).1 r2 h
    · have hb2 : ((r.conclusion == some "failure" || r.conclusion == some "cancelled"))
          = false := Bool.eq_false_iff.mpr hb
      have hrne : ∀ r3 : RunSummary, r3 = r →
          ¬(r3.conclusion = some "failure" ∨ r3.conclusion = some "cancelled") := by
        intro r3 h hf
        apply hb
        rw [← h]
        rcases hf with hfc | hfc
        · rw [hfc]; rfl
        · rw [hfc]; rfl
      have hr0r : r0 ∈ rest := by
        rcases List.mem_cons.mp hr0 with h | h
        · exact absurd hf0 (hrne r0 h)
        · exact h
      have htail : List.Pairwise run_desc rest := (List.pairwise_cons.mp hsorted).2
      have hne2 : ∀ x ∈ rest, x.updated_at ≠ "" := fun x hx => hne x (by simp [hx])
      have hlift : ∀ ls2 : Option String,
          (∃ t, (scan_last rest ls2 lf).2 = some t
            ∧ (∃ r2 ∈ rest, (r2.conclusion = some "failure"
                ∨ r2.conclusion = some "cancelled") ∧ r2.updated_at = t)
            ∧ (∀ r2 ∈ rest, (r2.conclusion = some "failure"
                ∨ r2.conclusion = some "cancelled") →
                r2.updated_at.data ≤ t.data)) →
          ∃ t, (scan_last rest ls2 lf).2 = some t
            ∧ (∃ r2 ∈ r :: rest, (r2.conclusion = some "failure"
                ∨ r2.conclusion = some "cancelled") ∧ r2.updated_at = t)
            ∧ (∀ r2 ∈ r :: rest, (r2.conclusion = some "failure"
                ∨ r2.conclusion = some "cancelled") →
                r2.updated_at.data ≤ t.data) := by
        rintro ls2 ⟨t, ht, ⟨r2, hr2, hf2, hupd⟩, hmax⟩
        refine ⟨t, ht, ⟨r2, by simp [hr2], hf2, hupd⟩, ?_⟩
        intro r3 hr3 hf3
        rcases List.mem_cons.mp hr3 with h | h
        · exact absurd hf3 (hrne r3 h)
        · exact hmax r3 h hf3
      by_cases h1 : (r.conclusion == some "success" && falsy ls) = true
      · rw [hred, if_pos h1]
        exact hlift (some r.updated_at)
          (ih htail hne2 (some r.updated_at) lf hlf r0 hr0r hf0)
      · rw [hred, if_neg h1, if_neg (by rw [hb2]; simp)]
        exact hlift ls (ih htail hne2 ls lf hlf r0 hr0r hf0)

/-- C1 (amended): the scan of `update_metrics` runs over the flattened runs
sorted by `updated_at` descending, not over group order.  For each of the
two slots: when the previous value is truthy it is never overwritten (the
freeze extends across poll cycles); when it is falsy (`None` or the empty
string) and a matching run exists (with well-formed, non-empty timestamps),
the captured value is the `updated_at` of a success
(resp. failure-or-cancelled) run that is maximal by timestamp among all
such runs — i.e. it IS the most-recent-by-timestamp value. -/
theorem update_metrics_last_capture_spec (prev : Metrics)
    (ws : List WorkflowSummary) :
    (falsy prev.last_success = false →
      (update_metrics prev ws).last_success = prev.last_success)
    ∧ (falsy prev.last_failure = false →
      (update_metrics prev ws).last_failure = prev.last_failure)
    ∧ (falsy prev.last_success = true →
      (∀ r ∈ all_runs_of ws, r.updated_at ≠ "") →
      ∀ r0 ∈ all_runs_of ws, r0.conclusion = some "success" →
      ∃ t, (update_metrics prev ws).last_success = some t
        ∧ (∃ r2 ∈ all_runs_of ws, r2.conclusion = some "success" ∧ r2.updated_at = t)
        ∧ (∀ r2 ∈ all_runs_of ws, r2.conclusion = some "success" →
            r2.updated_at.data ≤ t.data))
    ∧ (falsy prev.last_failure = true →
      (∀ r ∈ all_runs_of ws, r.updated_at ≠ "") →
      ∀ r0 ∈ all_runs_of ws,
        (r0.conclusion = some "failure" ∨ r0.conclusion = some "cancelled") →
      ∃ t, (update_metrics prev ws).last_failure = some t
        ∧ (∃ r2 ∈ all_runs_of ws, (r2.conclusion = some "failure"
            ∨ r2.conclusion = some "cancelled") ∧ r2.updated_at = t)
        ∧ (∀ r2 ∈ all_runs_of ws, (r2.conclusion = some "failure"
            ∨ r2.conclusion = some "cancelled") →
            r2.updated_at.data ≤ t.data)) := by
  refine ⟨?_, ?_, ?_, ?_⟩
  · intro h
    by_cases hall : all_runs_of ws = []
    · rw [update_metrics_eq_prev prev ws hall]
    · rw [update_metrics_fields prev ws hall]
      exact scan_last_fst_frozen _ _ _ h
  · intro h
    by_cases hall : all_runs_of ws = []
    · rw [update_metrics_eq_prev prev ws hall]
    · rw [update_metrics_fields prev ws hall]
      exact scan_last_snd_frozen _ _ _ h
  · intro hfalsy hne r0 hr0 hs0
    have hall : all_runs_of ws ≠ [] := by
      intro h
      rw [h] at hr0
      exact absurd hr0 (by simp)
    rw [update_metrics_fields prev ws hall]
    have hperm := List.perm_insertionSort run_desc (all_runs_of ws)
    have hsorted : List.Pairwise run_desc
        (List.insertionSort run_desc (all_runs_of ws)) :=
      List.sorted_insertionSort run_desc (all_runs_of ws)
    have hne2 : ∀ r ∈ List.insertionSort run_desc (all_runs_of ws),
        r.updated_at ≠ "" := fun r hr => hne r (hperm.mem_iff.mp hr)
    have hr0s : r0 ∈ List.insertionSort run_desc (all_runs_of ws) :=
      hperm.mem_iff.mpr hr0
    obtain ⟨t, ht, ⟨r2, hr2, hs2, hupd⟩, hmax⟩ :=
      scan_last_fst_success_max _ hsorted hne2 prev.last_success
        prev.last_failure hfalsy r0 hr0s hs0
    refine ⟨t, ht, ⟨r2, hperm.mem_iff.mp hr2, hs2, hupd⟩, ?_⟩
    intro r3 hr3 hs3
    exact hmax r3 (hperm.mem_iff.mpr hr3) hs3
  · intro hfalsy hne r0 hr0 hf0
    have hall : all_runs_of ws ≠ [] := by
      intro h
      rw [h] at hr0
      exact absurd hr0 (by simp)
    rw [update_metrics_fields prev ws hall]
    have hperm := List.perm_insertionSort run_desc (all_runs_of ws)
    have hsorted : List.Pairwise run_desc
        (List.insertionSort run_desc (all_runs_of ws)) :=
      List.sorted_insertionSort run_desc (all_runs_of ws)
    have hne2 : ∀ r ∈ List.insertionSort run_desc (all_runs_of ws),
        r.updated_at ≠ "" := fun r hr => hne r (hperm.mem_iff.mp hr)
    have hr0s : r0 ∈ List.insertionSort run_desc (all_runs_of ws) :=
      hperm.mem_iff.mpr hr0
    obtain ⟨t, ht, ⟨r2, hr2, hf2, hupd⟩, hmax⟩ :=
      scan_last_snd_failure_max _ hsorted hne2 prev.last_success
        prev.last_failure hfalsy r0 hr0s hf0
    refine ⟨t, ht, ⟨r2, hperm.mem_iff.mp hr2, hf2, hupd⟩, ?_⟩
    intro r3 hr3 hf3
    exact hmax r3 (hperm.mem_iff.mpr hr3) hf3

/-- C1 witness: freeze of both truthy slots over the two-success state, the
success capture at the two-success state, and the failure capture at the
one-failure state. -/
theorem update_metrics_last_capture_spec_witness :
    (falsy prev_frozen.last_success = false
      ∧ (update_metrics prev_frozen ws_two_successes).last_success
          = prev_frozen.last_success)
    ∧ (falsy prev_frozen.last_failure = false
      ∧ (update_metrics prev_frozen ws_two_successes).last_failure
          = prev_frozen.last_failure)
    ∧ (falsy init_metrics.last_success = true
      ∧ (∀ r ∈ all_runs_of ws_two_successes, r.updated_at ≠ "")
      ∧ sample_early_success ∈ all_runs_of ws_two_successes
      ∧ sample_early_success.conclusion = some "success"
      ∧ (∃ t, (update_metrics init_metrics ws_two_successes).last_success = some t
          ∧ (∃ r2 ∈ all_runs_of ws_two_successes,
              r2.conclusion = some "success" ∧ r2.updated_at = t)
          ∧ (∀ r2 ∈ all_runs_of ws_two_successes, r2.conclusion = some "success" →
              r2.updated_at.data ≤ t.data)))
    ∧ (falsy init_metrics.last_failure = true
      ∧ (∀ r ∈ all_runs_of ws_zero_duration, r.updated_at ≠ "")
      ∧ sample_failure ∈ all_runs_of ws_zero_duration
      ∧ (sample_failure.conclusion = some "failure"
          ∨ sample_failure.conclusion = some "cancelled")
      ∧ (∃ t, (update_metrics init_metrics ws_zero_duration).last_failure = some t
          ∧ (∃ r2 ∈ all_runs_of ws_zero_duration, (r2.conclusion = some "failure"
              ∨ r2.conclusion = some "cancelled") ∧ r2.updated_at = t)
          ∧ (∀ r2 ∈ all_runs_of ws_zero_duration, (r2.conclusion = some "failure"
              ∨ r2.conclusion = some "cancelled") →
              r2.updated_at.data ≤ t.data))) :=
  ⟨⟨by decide, (update_metrics_last_capture_spec prev_frozen ws_two_successes).1
      (by decide)⟩,
   ⟨by decide, (update_metrics_last_capture_spec prev_frozen ws_two_successes).2.1
      (by decide)⟩,
   ⟨rfl, by decide, by decide, rfl,
    (update_metrics_last_capture_spec init_metrics ws_two_successes).2.2.1
      rfl (by decide) sample_early_success (by decide) rfl⟩,
   ⟨rfl, by decide, by decide, Or.inl rfl,
    (update_metrics_last_capture_spec init_metrics ws_zero_duration).2.2.2
      rfl (by decide) sample_failure (by decide) (Or.inl rfl)⟩⟩
